import Mathlib

/-!
Shallow embedding of `src/gif-parser/src/lib/gif-parser.ts` (class `GifParser`,
the complete variant that also decodes color tables, the graphics control
extension and the image blocks).  Byte buffers (Node `Buffer`) are modelled as
`List Nat`; an out-of-range JS index (`undefined`) is modelled as `none` of
`Option Nat`.  Functions that can throw (Node's `readUInt16LE` range check,
`undefined.toString`) or loop forever (`parseImageData`'s scan running past the
end of the buffer, where `buffer[offset] !== 0x00` stays true forever) return
`Option`, with `none` for the aborted computation.  The floating point
`labValues` field (CIELAB conversion) is not modelled: no verified property
mentions it, and the hex string that can fail is computed before it in the
source's object literal.
-/

namespace GifP

/-- JS `buffer[i]`: the byte, or `none` for `undefined` when out of range. -/
def getByte (buf : List Nat) (i : Nat) : Option Nat := buf[i]?

/-- JS `x & m` where `x` may be `undefined`: `ToInt32(undefined) = 0`. -/
def jsAnd (x : Option Nat) (m : Nat) : Nat := x.getD 0 &&& m

/-- Node `buffer.subarray(s, e)` (also `slice`): clamps both ends, never throws. -/
def subarray (buf : List Nat) (s e : Nat) : List Nat := (buf.take e).drop s

/-- Node `buffer.readUInt16LE(off)`: little-endian u16, throws
`ERR_OUT_OF_RANGE` (here `none`) unless `off + 2 ≤ buffer.length`. -/
def readUInt16LE (buf : List Nat) (off : Nat) : Option Nat :=
  match buf[off]?, buf[off + 1]? with
  | some a, some b => some (a + 256 * b)
  | _, _ => none

structure HeaderBlock where
  signature : List Nat
  version : List Nat
  deriving DecidableEq

/-- `parseHeaderBlock`: `buffer.subarray(0,3).toString()` and
`buffer.subarray(3,6).toString()`; `subarray` clamps, so this never fails.
Strings are kept as their byte lists. -/
def parseHeaderBlock (buf : List Nat) : HeaderBlock :=
  { signature := subarray buf 0 3, version := subarray buf 3 6 }

structure LogicalScreenDescriptor where
  width : Nat
  height : Nat
  globalColorTableFlag : Bool
  colorResolution : Nat
  colorResolutionValue : Nat
  sortFlag : Bool
  backgroundColorIndex : Option Nat
  pixelAspectRatio : Option Nat
  deriving DecidableEq

/-- `parseLogicalScreenDescriptor` (the complete variant, lines 460-483):
slices bytes `[6,13)`, reads two u16LE values (which throw when the slice is
too short), then extracts the packed byte's bit fields; `descriptorBuffer[4]`,
`[5]`, `[6]` are plain indexing and yield `undefined` (here `none`) when
absent, with `undefined & mask = 0`. `colorResolutionValue` is
`Math.pow(2, colorResolution + 1)`. -/
def parseLogicalScreenDescriptor (buf : List Nat) :
    Option LogicalScreenDescriptor :=
  let d := subarray buf 6 13
  match readUInt16LE d 0, readUInt16LE d 2 with
  | some w, some h =>
    some { width := w
           height := h
           globalColorTableFlag := jsAnd (getByte d 4) 0b10000000 != 0
           colorResolution := (jsAnd (getByte d 4) 0b01110000) >>> 4
           colorResolutionValue := 2 ^ ((jsAnd (getByte d 4) 0b01110000) >>> 4 + 1)
           sortFlag := jsAnd (getByte d 4) 0b00001000 != 0
           backgroundColorIndex := getByte d 5
           pixelAspectRatio := getByte d 6 }
  | _, _ => none

structure RgbColour where
  r : Nat
  g : Nat
  b : Nat
  deriving DecidableEq

structure HexColour where
  value : String
  deriving DecidableEq

structure Color where
  rgbValues : RgbColour
  hexValue : HexColour
  deriving DecidableEq

/-- JS `n.toString(16)`: lowercase hexadecimal, no zero padding. -/
def toHexStr (n : Nat) : String := String.mk (Nat.toDigits 16 n)

/-- One entry of `parseColorTable`'s loop body: the color built from a full
triple, with `hexValue` = `'#' + r.toString(16) + g.toString(16) + b.toString(16)`. -/
def colorOf (r g b : Nat) : Color :=
  { rgbValues := { r := r, g := g, b := b }
    hexValue := { value := "#" ++ toHexStr r ++ toHexStr g ++ toHexStr b } }

/-- `parseColorTable`: `for (i = 0; i < buffer.length; i += 3)` reading
`buffer[i]`, `buffer[i+1]`, `buffer[i+2]`.  On a final partial triple the
missing channel is `undefined` and `undefined.toString(16)` in the `hexValue`
computation throws a `TypeError` (modelled as `none`). -/
def parseColorTable : List Nat → Option (List Color)
  | [] => some []
  | r :: g :: b :: rest =>
    match parseColorTable rest with
    | some cs => some (colorOf r g b :: cs)
    | none => none
  | _ => none

/-- `parseGlobalColorTable`: returns `[]` when the screen descriptor's
global-color-table flag is off; otherwise decodes
`buffer.subarray(13, 13 + 3 * 2^(colorResolution + 1))` — the size is taken
from `logicalScreenDescriptor.colorResolution` (packed bits 6-4). -/
def parseGlobalColorTable (hasGCT : Bool) (lsd : LogicalScreenDescriptor)
    (buf : List Nat) : Option (List Color) :=
  if hasGCT then
    parseColorTable (subarray buf 13 (13 + 3 * 2 ^ (lsd.colorResolution + 1)))
  else
    some []

structure GraphicsControlExtension where
  disposalMethod : Nat
  userInputFlag : Bool
  transparentColorFlag : Bool
  delayTime : Nat
  transparentColorIndex : Option Nat
  deriving DecidableEq

/-- `parseGraphicsControlExtension`: fixed offsets on the whole buffer.
`buffer[3]` and `buffer[6]` are plain indexing (`undefined` tolerated by the
bit masks); `readUInt16LE(4)` throws when the buffer is shorter than 6. -/
def parseGraphicsControlExtension (buf : List Nat) :
    Option GraphicsControlExtension :=
  match readUInt16LE buf 4 with
  | some dt =>
    some { disposalMethod := (jsAnd (getByte buf 3) 0b00011100) >>> 2
           userInputFlag := jsAnd (getByte buf 3) 0b00000010 != 0
           transparentColorFlag := jsAnd (getByte buf 3) 0b00000001 != 0
           delayTime := dt
           transparentColorIndex := getByte buf 6 }
  | none => none

structure ImageDescriptor where
  imageLeftPosition : Nat
  imageTopPosition : Nat
  imageWidth : Nat
  imageHeight : Nat
  localColorTableFlag : Bool
  interlaceFlag : Bool
  localColorTableSize : Nat
  deriving DecidableEq

/-- `parseImageDescriptor`: four u16LE reads on the 10-byte slice (each can
throw when the slice is short) and the packed byte `buffer[9]`
(`undefined & mask = 0` when absent). -/
def parseImageDescriptor (buf : List Nat) : Option ImageDescriptor :=
  match readUInt16LE buf 0, readUInt16LE buf 2,
        readUInt16LE buf 4, readUInt16LE buf 6 with
  | some l, some t, some w, some h =>
    some { imageLeftPosition := l
           imageTopPosition := t
           imageWidth := w
           imageHeight := h
           localColorTableFlag := jsAnd (getByte buf 9) 0b10000000 != 0
           interlaceFlag := jsAnd (getByte buf 9) 0b01000000 != 0
           localColorTableSize := jsAnd (getByte buf 9) 0b00000111 }
  | _, _, _, _ => none

structure Image where
  imageDescriptor : ImageDescriptor
  localColorTable : Option (List Color)
  imageData : List Nat
  deriving DecidableEq

/-- The `while (buffer[offset] !== 0x00)` loop of `parseImageData`.  When the
scan position reaches or passes the end of the buffer, `buffer[offset]` is
`undefined`, which never equals `0x00`, so the JS loop runs forever — modelled
as `none`; likewise when a block overruns the buffer (the scan then resumes
past the end and diverges the same way).  The fuel only bounds the recursion;
`buf.length + 1` is always enough because the offset strictly increases. -/
def parseImageDataGo (buf : List Nat) : Nat → Nat → List Nat → Option (List Nat)
  | 0, _, _ => none
  | fuel + 1, offset, acc =>
    if _h : offset < buf.length then
      let b := buf.getD offset 0
      if b = 0 then
        some acc
      else if offset + 1 + b ≤ buf.length then
        parseImageDataGo buf fuel (offset + 1 + b)
          (acc ++ subarray buf (offset + 1) (offset + 1 + b))
      else
        none
    else
      none

/-- `parseImageData(buffer, offset)`: increments `offset` once more (its own
"skip the LZW minimum code size byte" line) and then scans the length-prefixed
blocks. -/
def parseImageData (buf : List Nat) (offset : Nat) : Option (List Nat) :=
  parseImageDataGo buf (buf.length + 1) (offset + 1) []

/-- The `while (offset < buffer.length)` loop of `parseImages`.  A byte other
than `0x2c` is skipped; at `0x2c` the next 10 bytes form the descriptor, an
optional local color table of `3 * 2^((size & 7) + 1)` bytes follows, one byte
is skipped (commented "Skip the LZW minimum code size byte"), `parseImageData`
runs, and the loop resumes at `offset + imageData.length + 1`.  Fuel
`buf.length + 1` is always enough because the offset strictly increases. -/
def parseImagesGo (buf : List Nat) : Nat → Nat → List Image → Option (List Image)
  | 0, _, _ => none
  | fuel + 1, offset, acc =>
    if _h : offset < buf.length then
      if buf.getD offset 0 = 0x2c then
        match parseImageDescriptor (subarray buf (offset + 1) (offset + 11)) with
        | none => none
        | some desc =>
          let tlen : Nat :=
            if desc.localColorTableFlag then
              3 * 2 ^ ((desc.localColorTableSize &&& 0b00000111) + 1)
            else 0
          let lctRes : Option (Option (List Color)) :=
            if desc.localColorTableFlag then
              (parseColorTable (subarray buf (offset + 11) (offset + 11 + tlen))).map some
            else
              some none
          match lctRes with
          | none => none
          | some lct =>
            match parseImageData buf (offset + 11 + tlen + 1) with
            | none => none
            | some dat =>
              parseImagesGo buf fuel (offset + 11 + tlen + 1 + (dat.length + 1))
                (acc ++ [{ imageDescriptor := desc, localColorTable := lct,
                           imageData := dat }])
      else
        parseImagesGo buf fuel (offset + 1) acc
    else
      some acc

/-- `parseImages`: the scan starts at `let offset = 7` (the source comment
says "Skip the logical screen descriptor"). -/
def parseImages (buf : List Nat) : Option (List Image) :=
  parseImagesGo buf (buf.length + 1) 7 []

/-- The `GifParser` object's fields: each is `T | undefined` in TS, declared
`undefined` and assigned during the constructor. -/
structure GifParserState where
  binValue : Option (List Nat)
  headerBlock : Option HeaderBlock
  logicalScreenDescriptor : Option LogicalScreenDescriptor
  hasGlobalColorTable : Option Bool
  globalColorTable : Option (List Color)
  graphicsControlExtension : Option GraphicsControlExtension
  images : Option (List Image)
  deriving DecidableEq

/-- The constructor body after `loadGif` produced the byte buffer: parses
header, screen descriptor, global color table, graphics control extension and
images in that order; any thrown error (or the `parseImageData` infinite loop)
aborts construction (`none`). -/
def mkGifParser (buf : List Nat) : Option GifParserState :=
  match parseLogicalScreenDescriptor buf with
  | none => none
  | some lsd =>
    match parseGlobalColorTable lsd.globalColorTableFlag lsd buf with
    | none => none
    | some gct =>
      match parseGraphicsControlExtension buf with
      | none => none
      | some gce =>
        match parseImages buf with
        | none => none
        | some imgs =>
          some { binValue := some buf
                 headerBlock := some (parseHeaderBlock buf)
                 logicalScreenDescriptor := some lsd
                 hasGlobalColorTable := some lsd.globalColorTableFlag
                 globalColorTable := some gct
                 graphicsControlExtension := some gce
                 images := some imgs }

/-- Accessor `getBinValue`: returns the field or throws "... is undefined". -/
def getBinValue (s : GifParserState) : Except String (List Nat) :=
  match s.binValue with
  | some v => .ok v
  | none => .error "The binValue is undefined"

def getHeaderBlock (s : GifParserState) : Except String HeaderBlock :=
  match s.headerBlock with
  | some v => .ok v
  | none => .error "The headerBlock is undefined"

def getLogicalScreenDescriptor (s : GifParserState) :
    Except String LogicalScreenDescriptor :=
  match s.logicalScreenDescriptor with
  | some v => .ok v
  | none => .error "The logicalScreenDescriptor is undefined"

def getGlobalColorTable (s : GifParserState) : Except String (List Color) :=
  match s.globalColorTable with
  | some v => .ok v
  | none => .error "The globalColorTable is undefined"

def getGraphicsControlExtension (s : GifParserState) :
    Except String GraphicsControlExtension :=
  match s.graphicsControlExtension with
  | some v => .ok v
  | none => .error "The graphicsControlExtension is undefined"

def getImages (s : GifParserState) : Except String (List Image) :=
  match s.images with
  | some v => .ok v
  | none => .error "The images is undefined"

end GifP

namespace GifP

/-- The colors the specification expects from a byte run: one `Color` per
complete 3-byte triple, in order, any trailing partial triple dropped.  Used
to state what `parseColorTable` produces on well-formed input. -/
def tripleColors : List Nat → List Color
  | r :: g :: b :: rest => colorOf r g b :: tripleColors rest
  | _ => []

/-- The all-zero image descriptor (10 zero bytes). -/
def zeroDescriptor : ImageDescriptor :=
  { imageLeftPosition := 0, imageTopPosition := 0, imageWidth := 0,
    imageHeight := 0, localColorTableFlag := false, interlaceFlag := false,
    localColorTableSize := 0 }

/-- A buffer whose image descriptor at offset 7 is followed by the LZW
minimum code size byte (2, at offset 18) and sub-blocks of sizes 3 and 2 with
payloads `[1,2,3]` and `[4,5]`, then the 0x00 terminator. -/
def c1buf : List Nat :=
  [0, 0, 0, 0, 0, 0, 0, 0x2c, 0, 0, 0, 0, 0, 0, 0, 0, 0, 0, 2, 3, 1, 2, 3,
   2, 4, 5, 0]

/-- A buffer whose only `0x2c` byte sits at offset 7, inside the logical
screen descriptor region (offsets 6-12); nothing at offset 13 or later is an
image separator. -/
def c6buf : List Nat :=
  [0, 0, 0, 0, 0, 0, 0, 0x2c, 0, 0, 0, 0, 0, 0, 0, 0, 0, 0, 0, 0, 0]

/-- A 25-byte buffer whose packed screen-descriptor byte is `0b10000001`:
global-color-table flag set, color resolution (bits 6-4) 0, table-size
exponent (bits 2-0) 1.  Twelve bytes of table data follow offset 13, enough
for the four entries the claim predicts. -/
def c2buf : List Nat :=
  [71, 73, 70, 56, 57, 97, 10, 0, 10, 0, 0b10000001, 0, 0] ++
    List.replicate 12 0

/-- A 19-byte buffer with the flag set, color resolution 0 and six table
bytes: the witness input for the amended global-color-table claim. -/
def c2wbuf : List Nat :=
  [71, 73, 70, 56, 57, 97, 0, 0, 0, 0, 0b10000000, 0, 0, 10, 20, 30, 40, 50, 60]

/-- The screen descriptor decoded from `c2wbuf`. -/
def c2wlsd : LogicalScreenDescriptor :=
  { width := 0, height := 0, globalColorTableFlag := true,
    colorResolution := 0, colorResolutionValue := 2, sortFlag := false,
    backgroundColorIndex := some 0, pixelAspectRatio := some 0 }

/-- A 13-byte buffer whose packed byte `0x70` has color-resolution bits 7. -/
def c5buf : List Nat := [71, 73, 70, 56, 57, 97, 0, 0, 0, 0, 0x70, 0, 0]

/-- The screen descriptor decoded from `c5buf`. -/
def c5lsd : LogicalScreenDescriptor :=
  { width := 0, height := 0, globalColorTableFlag := false,
    colorResolution := 7, colorResolutionValue := 256, sortFlag := false,
    backgroundColorIndex := some 0, pixelAspectRatio := some 0 }

/-- A 7-byte buffer for the graphics-control-extension witness: packed byte 30
(`0b00011110`), delay bytes 57 and 1, transparent index 9. -/
def c8buf : List Nat := [0, 0, 0, 30, 57, 1, 9]

/-- The extension decoded from `c8buf`. -/
def c8gce : GraphicsControlExtension :=
  { disposalMethod := 7, userInputFlag := true, transparentColorFlag := false,
    delayTime := 313, transparentColorIndex := some 9 }

/-- An 8-byte buffer with no `0x2c` byte at offset 7 or later. -/
def c9buf : List Nat := [0, 0, 0, 0, 0, 0, 0, 0]

/-- A 13-byte `GIF89a` buffer, packed byte 0 (no global color table), on which
the whole constructor succeeds. -/
def c10buf : List Nat := [71, 73, 70, 56, 57, 97, 0, 0, 0, 0, 0, 0, 0]

/-- The parser state the constructor builds from `c10buf`. -/
def c10st : GifParserState :=
  { binValue := some c10buf
    headerBlock := some { signature := [71, 73, 70], version := [56, 57, 97] }
    logicalScreenDescriptor := some
      { width := 0, height := 0, globalColorTableFlag := false,
        colorResolution := 0, colorResolutionValue := 2, sortFlag := false,
        backgroundColorIndex := some 0, pixelAspectRatio := some 0 }
    hasGlobalColorTable := some false
    globalColorTable := some []
    graphicsControlExtension := some
      { disposalMethod := 6, userInputFlag := false,
        transparentColorFlag := false, delayTime := 24889,
        transparentColorIndex := some 0 }
    images := some [] }

/-- Length of a clamped slice. -/
theorem subarray_length (buf : List Nat) (s e : Nat) :
    (subarray buf s e).length = min e buf.length - s := by
  simp [subarray]

/-- Node's little-endian u16 read throws exactly when fewer than two bytes
remain at the offset. -/
theorem readUInt16LE_eq_none_iff (buf : List Nat) (off : Nat) :
    readUInt16LE buf off = none ↔ buf.length < off + 2 := by
  unfold readUInt16LE
  rcases h1 : buf[off]? with _ | a <;> rcases h2 : buf[off + 1]? with _ | b
  · have ha := List.getElem?_eq_none_iff.mp h1
    simp only []
    simp
    omega
  · have ha := List.getElem?_eq_none_iff.mp h1
    simp
    omega
  · have hb := List.getElem?_eq_none_iff.mp h2
    simp
    omega
  · obtain ⟨hb, -⟩ := List.getElem?_eq_some_iff.mp h2
    simp
    omega

/-- A successful little-endian u16 read composes the two bytes. -/
theorem readUInt16LE_eq_some (buf : List Nat) (off : Nat)
    (h : off + 2 ≤ buf.length) :
    readUInt16LE buf off = some (buf.getD off 0 + 256 * buf.getD (off + 1) 0) := by
  have h1 : off < buf.length := by omega
  have h2 : off + 1 < buf.length := by omega
  unfold readUInt16LE
  rw [List.getElem?_eq_getElem h1, List.getElem?_eq_getElem h2]
  simp [List.getD_eq_getElem?_getD, List.getElem?_eq_getElem, h1, h2]

/-- In-range JS indexing is `some` of the byte. -/
theorem getByte_eq_some (buf : List Nat) (i : Nat) (h : i < buf.length) :
    getByte buf i = some (buf.getD i 0) := by
  unfold getByte
  rw [List.getElem?_eq_getElem h]
  simp [List.getD_eq_getElem?_getD, List.getElem?_eq_getElem h]

set_option maxRecDepth 10000

/-- Keeping bits 4-2 and shifting is the arithmetic field `b / 4 % 8`. -/
theorem byte_and28 : ∀ b : Nat, b < 256 → (b &&& 28) >>> 2 = b / 4 % 8 := by
  decide

/-- Bit 1 as an arithmetic condition. -/
theorem byte_and2 : ∀ b : Nat, b < 256 →
    ((b &&& 2 != 0) = true ↔ b / 2 % 2 = 1) := by
  decide

/-- Bit 0 as an arithmetic condition. -/
theorem byte_and1 : ∀ b : Nat, b < 256 →
    ((b &&& 1 != 0) = true ↔ b % 2 = 1) := by
  decide

/-- On a run of complete triples the color-table loop succeeds and returns
exactly the per-triple colors. -/
theorem parseColorTable_eq_tripleColors :
    ∀ l : List Nat, 3 ∣ l.length → parseColorTable l = some (tripleColors l)
  | [], _ => rfl
  | [_], h => by
    simp only [List.length_cons, List.length_nil] at h
    omega
  | [_, _], h => by
    simp only [List.length_cons, List.length_nil] at h
    omega
  | _ :: _ :: _ :: rest, h => by
    have h3 : 3 ∣ rest.length := by
      simp only [List.length_cons] at h
      omega
    have ih := parseColorTable_eq_tripleColors rest h3
    simp only [parseColorTable, tripleColors, ih]

/-- The per-triple color list of a complete run has one entry per 3 bytes. -/
theorem tripleColors_length :
    ∀ l : List Nat, 3 ∣ l.length → (tripleColors l).length = l.length / 3
  | [], _ => rfl
  | [_], h => by
    simp only [List.length_cons, List.length_nil] at h
    omega
  | [_, _], h => by
    simp only [List.length_cons, List.length_nil] at h
    omega
  | _ :: _ :: _ :: rest, h => by
    have h3 : 3 ∣ rest.length := by
      simp only [List.length_cons] at h
      omega
    have ih := tripleColors_length rest h3
    simp only [tripleColors, List.length_cons]
    omega

/-- On a run whose length is not a multiple of 3 the color-table loop reaches
a partial triple and aborts. -/
theorem parseColorTable_eq_none :
    ∀ l : List Nat, ¬ 3 ∣ l.length → parseColorTable l = none
  | [], h => by simp at h
  | [_], _ => rfl
  | [_, _], _ => rfl
  | _ :: _ :: _ :: rest, h => by
    have h3 : ¬ 3 ∣ rest.length := by
      simp only [List.length_cons] at h ⊢
      omega
    have ih := parseColorTable_eq_none rest h3
    simp only [parseColorTable, ih]

/-- A successfully decoded screen descriptor's `colorResolution` is the
shifted bits-6-4 field and its `colorResolutionValue` is `2^(cr+1)`. -/
theorem parseLSD_shape (buf : List Nat) (lsd : LogicalScreenDescriptor)
    (h : parseLogicalScreenDescriptor buf = some lsd) :
    lsd.colorResolution
        = (jsAnd (getByte (subarray buf 6 13) 4) 0b01110000) >>> 4
      ∧ lsd.colorResolutionValue = 2 ^ (lsd.colorResolution + 1) := by
  simp only [parseLogicalScreenDescriptor] at h
  rcases h1 : readUInt16LE (subarray buf 6 13) 0 with _ | w <;> rw [h1] at h
  · simp at h
  rcases h2 : readUInt16LE (subarray buf 6 13) 2 with _ | ht <;> rw [h2] at h
  · simp at h
  simp only [Option.some.injEq] at h
  subst h
  exact ⟨rfl, rfl⟩

/-- The decoded color-resolution field is at most 7 (it is a 3-bit field). -/
theorem parseLSD_cr_le (buf : List Nat) (lsd : LogicalScreenDescriptor)
    (h : parseLogicalScreenDescriptor buf = some lsd) :
    lsd.colorResolution ≤ 7 := by
  obtain ⟨hcr, -⟩ := parseLSD_shape buf lsd h
  rw [hcr]
  unfold jsAnd
  have h1 : ((getByte (subarray buf 6 13) 4).getD 0 &&& 112) ≤ 112 :=
    Nat.and_le_right
  calc ((getByte (subarray buf 6 13) 4).getD 0 &&& 112) >>> 4
      = ((getByte (subarray buf 6 13) 4).getD 0 &&& 112) / 2 ^ 4 :=
        Nat.shiftRight_eq_div_pow _ 4
    _ ≤ 112 / 2 ^ 4 := Nat.div_le_div_right h1
    _ = 7 := by norm_num

/-- A buffer with no image-separator byte at or after the scan position is
skipped to the end, returning the images accumulated so far. -/
theorem parseImagesGo_no_sep (buf : List Nat) :
    ∀ (fuel offset : Nat) (acc : List Image),
      buf.length - offset < fuel →
      (∀ i, i < buf.length → offset ≤ i → buf.getD i 0 ≠ 0x2c) →
      parseImagesGo buf fuel offset acc = some acc
  | 0, _, _, hf, _ => absurd hf (by omega)
  | fuel + 1, offset, acc, hf, hsep => by
    unfold parseImagesGo
    by_cases h : offset < buf.length
    · rw [dif_pos h, if_neg (hsep offset h le_rfl)]
      exact parseImagesGo_no_sep buf fuel (offset + 1) acc (by omega)
        (fun i hi hle => hsep i hi (by omega))
    · rw [dif_neg h]

/-- Values 2^(cr+1) for a 3-bit field cr lie in the fixed power-of-two table. -/
theorem pow_mem_table :
    ∀ cr : Nat, cr ≤ 7 →
      2 ^ (cr + 1) ∈ ([2, 4, 8, 16, 32, 64, 128, 256] : List Nat) := by
  decide

/-- Claim C1: the scanner is supposed to return, for an image descriptor
followed by the LZW code-size byte and sub-blocks of sizes [3,2,0] with
payloads [1,2,3] and [4,5], the concatenated payload [1,2,3,4,5].  The code
increments the offset past the LZW byte in `parseImages` and then once more
inside `parseImageData` (both lines commented "Skip the LZW minimum code size
byte"), so on `c1buf` it skips the first length prefix, reads the first
payload byte 1 as a block length, and produces [2,2,4,5] instead. -/
theorem C1_imageData_double_lzw_skip :
    parseImages c1buf
        = some [{ imageDescriptor := zeroDescriptor, localColorTable := none,
                  imageData := [2, 2, 4, 5] }]
    ∧ ([2, 2, 4, 5] : List Nat) ≠ [1, 2, 3, 4, 5] := by
  decide

/-- Claim C2, counterexample: on `c2buf` the packed byte 0b10000001 has
table-size exponent (bits 2-0) 1, so the claim predicts 2^(1+1) = 4 decoded
entries, but the decoder sizes the table from the color-resolution field
(bits 6-4, here 0) and returns 2 entries. -/
theorem C2_counterexample :
    (parseLogicalScreenDescriptor c2buf).map (fun l => l.globalColorTableFlag)
        = some true
    ∧ ((parseLogicalScreenDescriptor c2buf).bind
          (fun l => parseGlobalColorTable l.globalColorTableFlag l c2buf)).map
            List.length = some 2
    ∧ (2 : Nat) ≠ 2 ^ ((c2buf.getD 10 0 &&& 0b00000111) + 1) := by
  decide

/-- Claim C2, amended: with the global-color-table flag set and the buffer
long enough, the table is decoded from offset 13 with 2^(N+1) entries where N
is the color-resolution field (bits 6-4) of the packed byte, and the entry
count lies in {2,4,8,16,32,64,128,256}. -/
theorem C2_table_sized_by_colorResolution (buf : List Nat)
    (lsd : LogicalScreenDescriptor)
    (h : parseLogicalScreenDescriptor buf = some lsd)
    (hf : lsd.globalColorTableFlag = true)
    (hlen : 13 + 3 * 2 ^ (lsd.colorResolution + 1) ≤ buf.length) :
    (parseGlobalColorTable lsd.globalColorTableFlag lsd buf).map List.length
        = some (2 ^ (lsd.colorResolution + 1))
    ∧ 2 ^ (lsd.colorResolution + 1)
        ∈ ([2, 4, 8, 16, 32, 64, 128, 256] : List Nat) := by
  constructor
  · rw [hf]
    show (parseColorTable
        (subarray buf 13 (13 + 3 * 2 ^ (lsd.colorResolution + 1)))).map
          List.length = some (2 ^ (lsd.colorResolution + 1))
    have hslen : (subarray buf 13
        (13 + 3 * 2 ^ (lsd.colorResolution + 1))).length
        = 3 * 2 ^ (lsd.colorResolution + 1) := by
      rw [subarray_length]
      omega
    have hdvd : 3 ∣ (subarray buf 13
        (13 + 3 * 2 ^ (lsd.colorResolution + 1))).length := by
      rw [hslen]
      exact Dvd.intro _ rfl
    rw [parseColorTable_eq_tripleColors _ hdvd]
    simp only [Option.map_some']
    rw [tripleColors_length _ hdvd, hslen]
    congr 1
    omega
  · exact pow_mem_table _ (parseLSD_cr_le buf lsd h)

/-- Claim C2, amended, witness: on `c2wbuf` (flag set, color resolution 0,
19 bytes) the decoded table has 2^(0+1) = 2 entries. -/
theorem C2_witness :
    parseLogicalScreenDescriptor c2wbuf = some c2wlsd
    ∧ c2wlsd.globalColorTableFlag = true
    ∧ 13 + 3 * 2 ^ (c2wlsd.colorResolution + 1) ≤ c2wbuf.length
    ∧ ((parseGlobalColorTable c2wlsd.globalColorTableFlag c2wlsd c2wbuf).map
          List.length = some (2 ^ (c2wlsd.colorResolution + 1))
       ∧ 2 ^ (c2wlsd.colorResolution + 1)
           ∈ ([2, 4, 8, 16, 32, 64, 128, 256] : List Nat)) :=
  ⟨by decide, by decide, by decide,
   C2_table_sized_by_colorResolution c2wbuf c2wlsd (by decide) (by decide)
     (by decide)⟩

/-- Claim C3: the claim (and the spec) require zero-padded two-digit lowercase
channels, 7 characters in all, with rgb(1,2,255) rendering as "#0102ff".  The
code concatenates unpadded `toString(16)` values and renders rgb(1,2,255) as
the 5-character "#12ff". -/
theorem C3_hex_not_zero_padded :
    parseColorTable [1, 2, 255]
        = some [{ rgbValues := { r := 1, g := 2, b := 255 },
                  hexValue := { value := "#12ff" } }]
    ∧ "#12ff".length ≠ 7 := by
  decide

/-- Claim C4, counterexample: header decoding of a 4-byte buffer does not
fail; `subarray` clamps and a complete record with truncated signature and
version byte runs is returned. -/
theorem C4_counterexample :
    parseHeaderBlock [1, 2, 3, 4] = { signature := [1, 2, 3], version := [4] }
    ∧ ([1, 2, 3, 4] : List Nat).length < 6 := by
  decide

/-- Claim C4, amended: header decoding never fails, and logical-screen-
descriptor decoding fails (Node's u16 read throws out-of-range on the clamped
7-byte slice) exactly when the buffer is shorter than 10 bytes — in
particular on a 4-byte buffer; from 10 bytes up a record is returned. -/
theorem C4_lsd_fails_iff_short (buf : List Nat) :
    parseLogicalScreenDescriptor buf = none ↔ buf.length < 10 := by
  have hd := subarray_length buf 6 13
  simp only [parseLogicalScreenDescriptor]
  rcases h1 : readUInt16LE (subarray buf 6 13) 0 with _ | w <;>
    rcases h2 : readUInt16LE (subarray buf 6 13) 2 with _ | t
  · have e1 := (readUInt16LE_eq_none_iff _ _).mp h1
    simp [h1, h2]
    omega
  · have e1 := (readUInt16LE_eq_none_iff _ _).mp h1
    simp [h1, h2]
    omega
  · have e2 := (readUInt16LE_eq_none_iff _ _).mp h2
    simp [h1, h2]
    omega
  · have e2 : ¬ (subarray buf 6 13).length < 2 + 2 := by
      intro hc
      have hn := (readUInt16LE_eq_none_iff (subarray buf 6 13) 2).mpr hc
      rw [hn] at h2
      exact Option.noConfusion h2
    simp [h1, h2]
    omega

/-- Claim C5: a decoded logical screen descriptor (any buffer of at least 13
bytes decodes) satisfies `colorResolutionValue = 2^(colorResolution + 1)`
with `colorResolution` the packed byte's bits 6-4, so the value lies in
{2,4,8,16,32,64,128,256}. -/
theorem C5_colorResolutionValue_pow (buf : List Nat)
    (lsd : LogicalScreenDescriptor) (_hlen : 13 ≤ buf.length)
    (h : parseLogicalScreenDescriptor buf = some lsd) :
    lsd.colorResolutionValue = 2 ^ (lsd.colorResolution + 1)
    ∧ lsd.colorResolutionValue
        ∈ ([2, 4, 8, 16, 32, 64, 128, 256] : List Nat) := by
  obtain ⟨-, hval⟩ := parseLSD_shape buf lsd h
  refine ⟨hval, ?_⟩
  rw [hval]
  exact pow_mem_table _ (parseLSD_cr_le buf lsd h)

/-- Claim C5, witness: the 13-byte buffer `c5buf` with packed byte 0x70
decodes to color resolution 7 and value 256. -/
theorem C5_witness :
    13 ≤ c5buf.length
    ∧ (c5lsd.colorResolutionValue = 2 ^ (c5lsd.colorResolution + 1)
       ∧ c5lsd.colorResolutionValue
           ∈ ([2, 4, 8, 16, 32, 64, 128, 256] : List Nat)) :=
  ⟨by decide, C5_colorResolutionValue_pow c5buf c5lsd (by decide) (by decide)⟩

/-- Claim C6: the claim says the image scan starts at or past offset 13 and
never examines the logical screen descriptor bytes (offsets 6-12) as image
separators.  The code starts the scan at offset 7 (its comment claims to skip
the screen descriptor), and on `c6buf` — whose single 0x2c byte sits at
offset 7, inside the descriptor region — it decodes an image there instead of
returning the empty sequence. -/
theorem C6_scan_enters_lsd_region :
    parseImages c6buf
        = some [{ imageDescriptor := zeroDescriptor, localColorTable := none,
                  imageData := [] }]
    ∧ c6buf.getD 7 0 = 0x2c
    ∧ c6buf.count 0x2c = 1 := by
  decide

/-- Claim C7, amended: the color-table decoder emits one Color per complete
3-byte triple, in order, when the slice length is a multiple of 3 (so
`length/3` entries); on any other length it does not drop the partial triple
but aborts (the read of the missing channel byte makes the hex formatting
throw). -/
theorem C7_partial_triple_aborts (l : List Nat) :
    (3 ∣ l.length →
       parseColorTable l = some (tripleColors l)
       ∧ (tripleColors l).length = l.length / 3)
    ∧ (¬ 3 ∣ l.length → parseColorTable l = none) :=
  ⟨fun h => ⟨parseColorTable_eq_tripleColors l h, tripleColors_length l h⟩,
   fun h => parseColorTable_eq_none l h⟩

/-- Claim C7, counterexample: on the 4-byte slice [1,2,3,4] the claim
predicts exactly floor(4/3) = 1 entry, but the decoder fails instead of
dropping the partial triple. -/
theorem C7_counterexample :
    parseColorTable [1, 2, 3, 4] = none
    ∧ ([1, 2, 3, 4] : List Nat).length / 3 = 1 := by
  decide

/-- Claim C7, amended, witness: the complete triple [1,2,3] decodes to the
single per-triple color. -/
theorem C7_witness :
    3 ∣ ([1, 2, 3] : List Nat).length
    ∧ (parseColorTable [1, 2, 3] = some (tripleColors [1, 2, 3])
       ∧ (tripleColors [1, 2, 3]).length = ([1, 2, 3] : List Nat).length / 3) :=
  ⟨by decide, (C7_partial_triple_aborts [1, 2, 3]).1 (by decide)⟩

/-- Claim C8: for a byte buffer of at least 7 bytes the decoded graphics
control extension has disposalMethod = bits 4-2 of the byte at offset 3,
userInputFlag = bit 1, transparentColorFlag = bit 0, delayTime = the
little-endian u16 at offsets 4-5, and transparentColorIndex = the byte at
offset 6. -/
theorem C8_gce_fields (buf : List Nat) (g : GraphicsControlExtension)
    (hlen : 7 ≤ buf.length) (hbytes : ∀ x ∈ buf, x < 256)
    (h : parseGraphicsControlExtension buf = some g) :
    g.disposalMethod = buf.getD 3 0 / 4 % 8
    ∧ (g.userInputFlag = true ↔ buf.getD 3 0 / 2 % 2 = 1)
    ∧ (g.transparentColorFlag = true ↔ buf.getD 3 0 % 2 = 1)
    ∧ g.delayTime = buf.getD 4 0 + 256 * buf.getD 5 0
    ∧ g.transparentColorIndex = some (buf.getD 6 0) := by
  have h3 : (3 : Nat) < buf.length := by omega
  have h6 : (6 : Nat) < buf.length := by omega
  have hb3 : buf.getD 3 0 < 256 := by
    rw [List.getD_eq_getElem?_getD, List.getElem?_eq_getElem h3]
    exact hbytes _ (List.getElem_mem h3)
  unfold parseGraphicsControlExtension at h
  rcases hr : readUInt16LE buf 4 with _ | dt <;> rw [hr] at h
  · simp at h
  simp only [Option.some.injEq] at h
  subst h
  refine ⟨?_, ?_, ?_, ?_, ?_⟩
  · show (jsAnd (getByte buf 3) 28) >>> 2 = _
    rw [getByte_eq_some buf 3 h3]
    simp only [jsAnd, Option.getD_some]
    exact byte_and28 _ hb3
  · show (jsAnd (getByte buf 3) 2 != 0) = true ↔ _
    rw [getByte_eq_some buf 3 h3]
    simp only [jsAnd, Option.getD_some]
    exact byte_and2 _ hb3
  · show (jsAnd (getByte buf 3) 1 != 0) = true ↔ _
    rw [getByte_eq_some buf 3 h3]
    simp only [jsAnd, Option.getD_some]
    exact byte_and1 _ hb3
  · have he := readUInt16LE_eq_some buf 4 (by omega)
    rw [hr] at he
    simpa using he
  · exact getByte_eq_some buf 6 h6

/-- Claim C8, witness: the 7-byte buffer `c8buf` with packed byte 30 decodes
to disposal 7, user-input set, transparency clear, delay 313 and index 9. -/
theorem C8_witness :
    7 ≤ c8buf.length
    ∧ (c8gce.disposalMethod = c8buf.getD 3 0 / 4 % 8
       ∧ (c8gce.userInputFlag = true ↔ c8buf.getD 3 0 / 2 % 2 = 1)
       ∧ (c8gce.transparentColorFlag = true ↔ c8buf.getD 3 0 % 2 = 1)
       ∧ c8gce.delayTime = c8buf.getD 4 0 + 256 * c8buf.getD 5 0
       ∧ c8gce.transparentColorIndex = some (c8buf.getD 6 0)) :=
  ⟨by decide, C8_gce_fields c8buf c8gce (by decide) (by decide) (by decide)⟩

/-- Claim C9: a buffer with no 0x2c byte at any scanned offset (7 or later)
makes the image scan walk to the end of the buffer and return the empty image
list, not a failure. -/
theorem C9_no_descriptor_returns_empty (buf : List Nat)
    (hsep : ∀ i, i < buf.length → 7 ≤ i → buf.getD i 0 ≠ 0x2c) :
    parseImages buf = some [] := by
  unfold parseImages
  exact parseImagesGo_no_sep buf (buf.length + 1) 7 [] (by omega) hsep

/-- Claim C9, witness: the all-zero 8-byte buffer scans to the empty list. -/
theorem C9_witness : parseImages c9buf = some [] :=
  C9_no_descriptor_returns_empty c9buf (by decide)

/-- Claim C10: when the constructor completes, every field is assigned, so
each accessor returns its record (the "is undefined" throw is unreachable),
and with the global-color-table flag off the global table accessor returns
the empty list, never an absent value. -/
theorem C10_accessors_defined (buf : List Nat) (st : GifParserState)
    (h : mkGifParser buf = some st) :
    (getBinValue st).isOk = true
    ∧ (getHeaderBlock st).isOk = true
    ∧ (getLogicalScreenDescriptor st).isOk = true
    ∧ (getGlobalColorTable st).isOk = true
    ∧ (getGraphicsControlExtension st).isOk = true
    ∧ (getImages st).isOk = true
    ∧ (st.hasGlobalColorTable = some false →
         getGlobalColorTable st = .ok []) := by
  unfold mkGifParser at h
  split at h
  · exact absurd h (by simp)
  next lsd h1 =>
    split at h
    · exact absurd h (by simp)
    next gct h2 =>
      split at h
      · exact absurd h (by simp)
      next gce h3 =>
        split at h
        · exact absurd h (by simp)
        next imgs h4 =>
          simp only [Option.some.injEq] at h
          subst h
          refine ⟨rfl, rfl, rfl, rfl, rfl, rfl, ?_⟩
          intro hflag
          have hf : lsd.globalColorTableFlag = false := by simpa using hflag
          rw [hf] at h2
          simp only [parseGlobalColorTable] at h2
          simp at h2
          subst h2
          rfl

/-- Claim C10, witness: on the 13-byte `c10buf` (flag off) the constructor
succeeds, every accessor answers, and the global table is the empty list. -/
theorem C10_witness :
    mkGifParser c10buf = some c10st
    ∧ ((getBinValue c10st).isOk = true
       ∧ (getHeaderBlock c10st).isOk = true
       ∧ (getLogicalScreenDescriptor c10st).isOk = true
       ∧ (getGlobalColorTable c10st).isOk = true
       ∧ (getGraphicsControlExtension c10st).isOk = true
       ∧ (getImages c10st).isOk = true
       ∧ (c10st.hasGlobalColorTable = some false →
            getGlobalColorTable c10st = .ok [])) :=
  ⟨by decide, C10_accessors_defined c10buf c10st (by decide)⟩

end GifP
